import Mathlib

/-!
Verification of the value/selection/track-layout model of the SLEAP
timeline slider (sleap/gui/slider.py) and of the pad-to-stride helper
(sleap/nn/data/resizing.py).

The definitions below are a shallow embedding of the Python source.
Slider values are frame indices, embedded as integers; pixel positions
are embedded as rationals.  Python integer floor division and modulo by
a positive divisor agree with Lean's `/` and `%` on `Int` (Euclidean
division, which coincides with floor division for positive divisors);
every division in the embedded code has a positive divisor.  Python
float division raises ZeroDivisionError on a zero divisor, embedded as
an `Option` result (`pyDiv`).
-/

namespace Sleap

/-- Python's built-in `round`: round half to even (banker's rounding). -/
def pyRound (q : ℚ) : ℤ :=
  let n := ⌊q⌋
  let r := q - n
  if r < 1/2 then n
  else if 1/2 < r then n + 1
  else if n % 2 = 0 then n else n + 1

/-- Python's `x / y` on numbers: `none` models the ZeroDivisionError. -/
def pyDiv (a b : ℚ) : Option ℚ := if b = 0 then none else some (a / b)

/-- Python's `min(iterable, default=d)`: the least element of the list,
or `d` when the list is empty. -/
def pyMinD (l : List ℤ) (d : ℤ) : ℤ :=
  match l with
  | [] => d
  | x :: xs => xs.foldl min x

/-- Python's `max(iterable, default=d)`: the greatest element of the list,
or `d` when the list is empty. -/
def pyMaxD (l : List ℤ) (d : ℤ) : ℤ :=
  match l with
  | [] => d
  | x :: xs => xs.foldl max x

/-- Python's `range(start, stop, step)` for a positive step (the only
form the embedded code uses). -/
def pyRange (start stop step : ℤ) : List ℤ :=
  if step ≤ 0 then []
  else (List.range ((stop - start + step - 1) / step).toNat).map
    fun k => start + k * step

/-! ## sleap/nn/data/resizing.py -/

/-- Source `find_padding_for_stride`: `pad_bottom = (max_stride - (image_height
% max_stride)) % max_stride` and likewise `pad_right` for the width. -/
def find_padding_for_stride (image_height image_width max_stride : ℕ) : ℕ × ℕ :=
  ((max_stride - image_height % max_stride) % max_stride,
   (max_stride - image_width % max_stride) % max_stride)

/-! ## VideoSlider: track row layout -/

/-- Source `VideoSlider.getTrackColRow`.  `maxStacked` embeds
`self._max_tracks_stacked` (120 in `__init__`) and `skipCount` embeds
`self._track_stack_skip_count` (10 in `__init__`). -/
def getTrackColRow (maxStacked skipCount raw_row : ℕ) : ℕ × ℕ :=
  if raw_row < maxStacked then (0, raw_row)
  else
    let rows_after_first_col := raw_row - maxStacked
    let rows_per_later_cols := maxStacked - skipCount
    (rows_after_first_col / rows_per_later_cols + 1,
     rows_after_first_col % rows_per_later_cols)

/-! ## VideoSlider: value state -/

/-- The slider value fields `_val_min`, `_val_max`, `_val_main`. -/
structure SliderValueState where
  val_min : ℤ
  val_max : ℤ
  val_main : ℤ
deriving DecidableEq

/-- Source `VideoSlider.setValue`: stores the value unconditionally
(the visual handle move is not modelled). -/
def setValue (s : SliderValueState) (val : ℤ) : SliderValueState :=
  ⟨s.val_min, s.val_max, val⟩

/-- Source `VideoSlider.setMinimum`: stores the minimum unconditionally. -/
def setMinimum (s : SliderValueState) (m : ℤ) : SliderValueState :=
  ⟨m, s.val_max, s.val_main⟩

/-- Source `VideoSlider.setMaximum`: stores the maximum unconditionally. -/
def setMaximum (s : SliderValueState) (m : ℤ) : SliderValueState :=
  ⟨s.val_min, m, s.val_main⟩

/-! ## VideoSlider: value / pixel-position mapping -/

/-- Source `VideoSlider._sliderWidth`: drawable box width minus the width
of the drag handle. -/
def sliderWidth (boxWidth handleWidth : ℚ) : ℚ := boxWidth - handleWidth

/-- Source `VideoSlider._toPos`: `x = (val - _val_min) / max(1, _val_max -
_val_min) * _sliderWidth()`, plus half the handle width when `center`.
The division is embedded with `pyDiv`; its divisor is floored at 1. -/
def toPos (vmin vmax w handleWidth : ℚ) (val : ℚ) (center : Bool) : Option ℚ :=
  (pyDiv (val - vmin) (max 1 (vmax - vmin))).map fun q =>
    let x := q * w
    if center then x + handleWidth / 2 else x

/-- Source `VideoSlider._toVal`: `val = round(x / _sliderWidth() * max(1,
_val_max - _val_min) + _val_min)`.  The division by the slider width is
unguarded in the source; `center` is accepted and ignored, as in the
source. -/
def toVal (vmin vmax w : ℚ) (x : ℚ) (center : Bool) : Option ℤ :=
  (pyDiv x w).map fun q => pyRound (q * max 1 (vmax - vmin) + vmin)

/-! ## VideoSlider: marks -/

/-- Source `SliderMark`, restricted to the fields the embedded operations
read: `type`, `val`, `end_val` and `row`.  `end_val` and `row` default to
`None` in the source and are only ever read for marks of type "track". -/
structure SliderMark where
  type : String
  val : ℤ
  end_val : Option ℤ
  row : Option ℕ
deriving DecidableEq

/-- Source `VideoSlider.addMark`, on the mark set `_marks`: a mark whose
`val` lies outside `[_val_min, _val_max]` is silently dropped (the early
returns); otherwise it is added.  The source stores marks in an
identity-keyed `set`, embedded as a list; the visual scene items are not
modelled. -/
def addMark (vmin vmax : ℤ) (marks : List SliderMark) (new_mark : SliderMark) :
    List SliderMark :=
  if vmax < new_mark.val then marks
  else if new_mark.val < vmin then marks
  else marks ++ [new_mark]

/-- Source `VideoSlider.isMarkedVal`: the value is the start of some mark,
or lies in `[val, end_val)` of some "track" mark. -/
def isMarkedVal (marks : List SliderMark) (val : ℤ) : Bool :=
  (marks.map SliderMark.val).contains val ||
  marks.any fun m =>
    m.type == "track" &&
    match m.end_val with
    | some e => decide (m.val ≤ val) && decide (val < e)
    | none => false

/-- The generator inside `decrementContiguousMarkedVal`: `mark.val` for the
"track" marks with `mark.val < val <= mark.end_val`. -/
def decCandidates (marks : List SliderMark) (val : ℤ) : List ℤ :=
  marks.filterMap fun m =>
    match m.end_val with
    | some e =>
      if m.type == "track" && decide (m.val < val) && decide (val ≤ e) then
        some m.val
      else none
    | none => none

/-- Source `VideoSlider.decrementContiguousMarkedVal`. -/
def decrementContiguousMarkedVal (marks : List SliderMark) (val : ℤ) : ℤ :=
  let dec_val := pyMinD (decCandidates marks val) val
  if dec_val < val then dec_val
  else if (val - 1) ∈ marks.map SliderMark.val then val - 1
  else val

/-- The generator inside `incrementContiguousMarkedVal`: `mark.end_val - 1`
for the "track" marks with `mark.val <= val < mark.end_val`. -/
def incCandidates (marks : List SliderMark) (val : ℤ) : List ℤ :=
  marks.filterMap fun m =>
    match m.end_val with
    | some e =>
      if m.type == "track" && decide (m.val ≤ val) && decide (val < e) then
        some (e - 1)
      else none
    | none => none

/-- Source `VideoSlider.incrementContiguousMarkedVal`. -/
def incrementContiguousMarkedVal (marks : List SliderMark) (val : ℤ) : ℤ :=
  let inc_val := pyMaxD (incCandidates marks val) val
  if val < inc_val then inc_val
  else if (val + 1) ∈ marks.map SliderMark.val then val + 1
  else val

/-- Source `VideoSlider.getStartContiguousMark`: repeatedly decrement while
the decremented value is smaller and above `_val_min`. -/
def getStartContiguousMark (marks : List SliderMark) (vmin : ℤ) (lastVal : ℤ) : ℤ :=
  let dec_val := decrementContiguousMarkedVal marks lastVal
  if dec_val < lastVal ∧ vmin < dec_val then getStartContiguousMark marks vmin dec_val
  else dec_val
termination_by (lastVal - vmin).toNat
decreasing_by omega

/-- Source `VideoSlider.getEndContiguousMark`: repeatedly increment while
the incremented value is larger and below `_val_max`. -/
def getEndContiguousMark (marks : List SliderMark) (vmax : ℤ) (lastVal : ℤ) : ℤ :=
  let inc_val := incrementContiguousMarkedVal marks lastVal
  if lastVal < inc_val ∧ inc_val < vmax then getEndContiguousMark marks vmax inc_val
  else inc_val
termination_by (vmax - lastVal).toNat
decreasing_by omega

/-! ## VideoSlider: selection -/

/-- Python `lst[-2:]` unpacked as `a, b`: the last two elements, `none`
when the list has fewer than two (Python would raise ValueError). -/
def lastTwo (l : List ℤ) : Option (ℤ × ℤ) :=
  match l.reverse with
  | b :: a :: _ => some (a, b)
  | _ => none

/-- Source `VideoSlider.startSelection`: appends the endpoint to
`_selection`. -/
def startSelection (sel : List ℤ) (val : ℤ) : List ℤ := sel ++ [val]

/-- Source `VideoSlider.endSelection` on the `_selection` list: when
`update` holds and the endpoint count is even, pop the most recent
endpoint (`none` models the IndexError of popping an empty list); append
the new endpoint; when the last two endpoints are equal, clear the
selection (`clearSelection`), else keep the list (`none` models the
ValueError of unpacking fewer than two endpoints). -/
def endSelection (sel : List ℤ) (val : ℤ) (update : Bool) : Option (List ℤ) :=
  let popped : Option (List ℤ) :=
    if update = true ∧ sel.length % 2 = 0 then
      if sel.isEmpty then none else some sel.dropLast
    else some sel
  popped.bind fun s1 =>
    let s2 := s1 ++ [val]
    match lastTwo s2 with
    | none => none
    | some (a, b) => if a = b then some [] else some s2

/-- Source `VideoSlider.setSelection`: `startSelection(start_val)` then
`endSelection(end_val, update=True)`. -/
def setSelection (sel : List ℤ) (start_val end_val : ℤ) : Option (List ℤ) :=
  endSelection (startSelection sel start_val) end_val true

/-- Source `VideoSlider.getSelection`: the last two endpoints when the
endpoint count is even and positive, else `(0, 0)`; returned as
`(min, max)`. -/
def getSelection (sel : List ℤ) : ℤ × ℤ :=
  let p : ℤ × ℤ :=
    if sel.length % 2 = 0 ∧ 0 < sel.length then (lastTwo sel).getD (0, 0)
    else (0, 0)
  (min p.1 p.2, max p.1 p.2)

/-- Source `VideoSlider.contiguousSelectionMarksAroundVal`: no-op when the
value is not marked; otherwise select from the contiguous start to the
contiguous end around the value. -/
def contiguousSelectionMarksAroundVal (marks : List SliderMark) (vmin vmax : ℤ)
    (sel : List ℤ) (val : ℤ) : Option (List ℤ) :=
  if isMarkedVal marks val then
    setSelection sel (getStartContiguousMark marks vmin val)
      (getEndContiguousMark marks vmax val)
  else some sel

/-! ## VideoSlider: automatic tick marks -/

/-- The `while` loop of `_add_tick_marks`: `val_order = 10; while val_range
// val_order > 24: val_order *= 10`.  The loop is entered only with the
positive literal 10 and the order stays positive; the positivity argument
records that invariant for termination. -/
def tickOrderLoop (val_range : ℤ) (order : ℤ) (hord : 0 < order) : ℤ :=
  if 24 < val_range / order then
    tickOrderLoop val_range (order * 10) (by omega)
  else order
termination_by (val_range - order).toNat
decreasing_by
  have h25 : 25 * order ≤ val_range := (Int.le_ediv_iff_mul_le hord).mp (by omega)
  omega

/-- The tick step `_add_tick_marks` settles on for a visible value range. -/
def tickOrder (val_range : ℤ) : ℤ := tickOrderLoop val_range 10 (by omega)

/-- Source `VideoSlider._add_tick_marks`, reduced to the positions of the
created "tick" marks: `range(_val_min + val_order - 1, _val_max,
val_order)`. -/
def addTickMarkPositions (val_range vmin vmax : ℤ) : List ℤ :=
  pyRange (vmin + tickOrder val_range - 1) vmax (tickOrder val_range)

/-- Modelled from the claim wording, for comparison with the source: every
multiple-of-step position within `[vmin + step - 1, vmax)`. -/
def specTickPositions (vmin vmax step : ℤ) : List ℤ :=
  (pyRange (vmin + step - 1) vmax 1).filter fun p => p % step == 0

/-! ## Helper lemmas -/

lemma pyRound_intCast (v : ℤ) : pyRound ((v : ℚ)) = v := by
  unfold pyRound
  norm_num [Int.floor_intCast]

lemma max_one_ne_zero (d : ℚ) : max 1 d ≠ 0 :=
  ne_of_gt (lt_of_lt_of_le one_pos (le_max_left 1 d))

lemma pad_dvd (a s : ℕ) (hs : 0 < s) : s ∣ a + (s - a % s) % s := by
  rcases Nat.eq_zero_or_pos (a % s) with h0 | hpos
  · rw [h0, Nat.sub_zero, Nat.mod_self, Nat.add_zero]
    exact Nat.dvd_of_mod_eq_zero h0
  · have hlt : a % s < s := Nat.mod_lt _ hs
    have hmod : (s - a % s) % s = s - a % s := Nat.mod_eq_of_lt (by omega)
    rw [hmod]
    have hda := Nat.div_add_mod a s
    refine ⟨a / s + 1, ?_⟩
    have hd : s * (a / s + 1) = s * (a / s) + s := by ring
    omega

lemma pad_unique (a s b : ℕ) (hs : 0 < s) (hb : b < s) (hd : s ∣ a + b) :
    b = (s - a % s) % s := by
  have hd2 : s ∣ a + (s - a % s) % s := pad_dvd a s hs
  have hmeq : a + b ≡ a + (s - a % s) % s [MOD s] := by
    unfold Nat.ModEq
    rw [Nat.mod_eq_zero_of_dvd hd, Nat.mod_eq_zero_of_dvd hd2]
  have hb2 : b ≡ (s - a % s) % s [MOD s] := Nat.ModEq.add_left_cancel' a hmeq
  have hblt : (s - a % s) % s < s := Nat.mod_lt _ hs
  calc b = b % s := (Nat.mod_eq_of_lt hb).symm
    _ = (s - a % s) % s % s := hb2
    _ = (s - a % s) % s := Nat.mod_eq_of_lt hblt

/-! ## Claim theorems -/

/-- Claim C1: for every integer value v with min less or equal v less or
equal max, converting v to a pixel position with toPos (center = false)
and converting that position back with toVal returns v, within a rounding
tolerance of 1 unit (in a state whose slider width is nonzero, so that
toVal is defined). -/
theorem toPos_toVal_roundtrip (vmin vmax w hw : ℚ) (v : ℤ) (hw0 : w ≠ 0)
    (hv1 : vmin ≤ (v : ℚ)) (hv2 : (v : ℚ) ≤ vmax) :
    ∃ r : ℤ, (toPos vmin vmax w hw (v : ℚ) false).bind
        (fun p => toVal vmin vmax w p false) = some r ∧ |r - v| ≤ 1 := by
  have hD : max 1 (vmax - vmin) ≠ 0 := max_one_ne_zero _
  refine ⟨v, ?_, by simp⟩
  simp only [toPos, toVal, pyDiv, if_neg hD, if_neg hw0, Option.map_some',
    Option.some_bind, Bool.false_eq_true, if_false]
  rw [mul_div_cancel_right₀ _ hw0, div_mul_cancel₀ _ hD, sub_add_cancel,
    pyRound_intCast]

/-- Witness for C1 at the concrete state min 0, max 100, slider width 194,
handle width 6, value 40. -/
theorem toPos_toVal_roundtrip_witness :
    ∃ r : ℤ, (toPos 0 100 194 6 ((40 : ℤ) : ℚ) false).bind
        (fun p => toVal 0 100 194 p false) = some r ∧ |r - 40| ≤ 1 :=
  toPos_toVal_roundtrip 0 100 194 6 40 (by norm_num) (by norm_num) (by norm_num)

/-- Claim C4: for positive height and width and stride at least 1,
find_padding_for_stride returns the unique componentwise-least pair of
non-negative integers below the stride making height and width divisible
by the stride; in particular it maps (17, 9, 8) to (7, 7). -/
theorem find_padding_for_stride_spec (h w s : ℕ) (hh : 0 < h) (hw : 0 < w)
    (hs : 1 ≤ s) :
    (find_padding_for_stride h w s).1 < s ∧
    (find_padding_for_stride h w s).2 < s ∧
    s ∣ h + (find_padding_for_stride h w s).1 ∧
    s ∣ w + (find_padding_for_stride h w s).2 ∧
    (∀ pb pr : ℕ, pb < s → pr < s → s ∣ h + pb → s ∣ w + pr →
      (pb, pr) = find_padding_for_stride h w s) ∧
    find_padding_for_stride 17 9 8 = (7, 7) := by
  have hs0 : 0 < s := hs
  refine ⟨Nat.mod_lt _ hs0, Nat.mod_lt _ hs0, pad_dvd h s hs0, pad_dvd w s hs0,
    ?_, by decide⟩
  intro pb pr hpb hpr hdb hdr
  unfold find_padding_for_stride
  rw [pad_unique h s pb hs0 hpb hdb, pad_unique w s pr hs0 hpr hdr]

/-- Witness for C4 at the concrete input height 17, width 9, stride 8. -/
theorem find_padding_for_stride_spec_witness :
    (find_padding_for_stride 17 9 8).1 < 8 ∧
    8 ∣ 17 + (find_padding_for_stride 17 9 8).1 ∧
    find_padding_for_stride 17 9 8 = (7, 7) := by
  have h := find_padding_for_stride_spec 17 9 8 (by norm_num) (by norm_num)
    (by norm_num)
  exact ⟨h.1, h.2.2.1, h.2.2.2.2.2⟩

/-- Claim C5: with maxStacked 120 and skipCount 10 (the constants of
`__init__`), getTrackColRow maps row to (0, row) when row is below 120 and
otherwise to column 1 + (row - 120) / 110 and row-within-column
(row - 120) % 110; in particular row 125 maps to (1, 5). -/
theorem getTrackColRow_spec :
    (∀ row : ℕ, getTrackColRow 120 10 row =
      if row < 120 then (0, row)
      else (1 + (row - 120) / 110, (row - 120) % 110)) ∧
    getTrackColRow 120 10 125 = (1, 5) := by
  constructor
  · intro row
    unfold getTrackColRow
    split
    · rfl
    · norm_num [Nat.add_comm]
  · decide

/-- Claim C6: a mark whose start value lies strictly outside
[_val_min, _val_max] is silently rejected by addMark: the mark set is
returned unchanged. -/
theorem addMark_out_of_range (vmin vmax : ℤ) (marks : List SliderMark)
    (m : SliderMark) (h : vmax < m.val ∨ m.val < vmin) :
    addMark vmin vmax marks m = marks := by
  unfold addMark
  split
  · rfl
  · split
    · rfl
    · rcases h with h | h <;> omega

/-- Witness for C6: adding a mark at value max + 1 = 101 to a slider with
range [0, 100] leaves the mark set unchanged. -/
theorem addMark_out_of_range_witness :
    addMark 0 100 [⟨"simple", 10, none, none⟩] ⟨"simple", 101, none, none⟩ =
      [⟨"simple", 10, none, none⟩] :=
  addMark_out_of_range 0 100 [⟨"simple", 10, none, none⟩]
    ⟨"simple", 101, none, none⟩ (Or.inl (by decide))

/-- Claim C9 (amended): the slider setters do not enforce the invariant
min less or equal value less or equal max: setValue stores its argument
without clamping, so the invariant holds after setValue exactly when the
stored value already lay within the bounds, and setMinimum and setMaximum
adjust only the bound, never the value. -/
theorem setValue_no_clamp (s : SliderValueState) (v : ℤ) :
    (((setValue s v).val_min ≤ (setValue s v).val_main ∧
      (setValue s v).val_main ≤ (setValue s v).val_max) ↔
      (s.val_min ≤ v ∧ v ≤ s.val_max)) ∧
    (setMinimum s v).val_main = s.val_main ∧
    (setMaximum s v).val_main = s.val_main := by
  simp [setValue, setMinimum, setMaximum]

/-- Counterexample to C9 as stated: from the state (min 0, max 100,
value 50), setValue 200 stores 200, which violates value less or equal
max. -/
theorem setValue_no_clamp_cex :
    (setValue ⟨0, 100, 50⟩ 200).val_main = 200 ∧
    ¬ ((setValue ⟨0, 100, 50⟩ 200).val_main ≤
        (setValue ⟨0, 100, 50⟩ 200).val_max) := by
  decide

/-- Claim C10: toVal divides by the slider width with no guard: in any
state whose drawable box width equals the handle width the division is by
zero and toVal fails (raises ZeroDivisionError) for every pixel input,
while toPos, whose value-range divisor is floored at 1, always returns a
position. -/
theorem toVal_division_unguarded (boxw hw vmin vmax x v : ℚ) (c c' : Bool) :
    toVal vmin vmax (sliderWidth boxw boxw) x c = none ∧
    ∃ p, toPos vmin vmax (sliderWidth boxw hw) hw v c' = some p := by
  constructor
  · simp [toVal, sliderWidth, pyDiv]
  · simp [toPos, pyDiv, max_one_ne_zero (vmax - vmin)]

lemma lastTwo_append_two (l : List ℤ) (x y : ℤ) :
    lastTwo (l ++ [x, y]) = some (x, y) := by
  simp [lastTwo, List.reverse_append]

lemma endSelection_even_ne (l : List ℤ) (a x v : ℤ)
    (heven : (l ++ [a, x]).length % 2 = 0) (hv : v ≠ a) :
    endSelection (l ++ [a, x]) v true = some (l ++ [a, v]) := by
  have hdl : (l ++ [a, x]).dropLast = l ++ [a] := by
    rw [show l ++ [a, x] = (l ++ [a]) ++ [x] by simp]
    exact List.dropLast_concat
  have hne : (l ++ [a, x]).isEmpty = false := by simp
  unfold endSelection
  rw [if_pos ⟨rfl, heven⟩, hne]
  simp only [Bool.false_eq_true, if_false, hdl, Option.some_bind]
  rw [show (l ++ [a]) ++ [v] = l ++ [a, v] by simp, lastTwo_append_two]
  simp [if_neg (Ne.symm hv)]

lemma setSelection_even (sel : List ℤ) (a b : ℤ)
    (heven : sel.length % 2 = 0) (hab : a ≠ b) :
    setSelection sel a b = some (sel ++ [a, b]) := by
  have hodd : ¬ ((sel ++ [a]).length % 2 = 0) := by
    simp [List.length_append]
    omega
  unfold setSelection startSelection endSelection
  rw [if_neg fun hc => hodd hc.2]
  simp only [Option.some_bind]
  rw [show (sel ++ [a]) ++ [b] = sel ++ [a, b] by simp, lastTwo_append_two]
  simp [if_neg hab]

lemma getSelection_append_two (sel : List ℤ) (a b : ℤ)
    (heven : sel.length % 2 = 0) :
    getSelection (sel ++ [a, b]) = (min a b, max a b) := by
  have hlen : (sel ++ [a, b]).length % 2 = 0 ∧ 0 < (sel ++ [a, b]).length := by
    simp [List.length_append]
    omega
  unfold getSelection
  rw [if_pos hlen, lastTwo_append_two]
  rfl

/-- Claim C7 (amended): from a state with an even positive number of
recorded selection endpoints, endSelection with updateLast removes the
most recent endpoint before appending the new value, so the endpoint
count is unchanged and the recorded pair ends in the new value, provided
the new value differs from the remaining first endpoint of the pair (when
they are equal the source clears the selection instead); calling it twice
in a row replaces the second endpoint rather than appending a third. -/
theorem endSelection_updateLast (l : List ℤ) (a x v v2 : ℤ)
    (heven : (l ++ [a, x]).length % 2 = 0) (hv : v ≠ a) (hv2 : v2 ≠ a) :
    endSelection (l ++ [a, x]) v true = some (l ++ [a, v]) ∧
    (l ++ [a, v]).length = (l ++ [a, x]).length ∧
    endSelection (l ++ [a, v]) v2 true = some (l ++ [a, v2]) := by
  refine ⟨endSelection_even_ne l a x v heven hv, by simp, ?_⟩
  exact endSelection_even_ne l a v v2 (by simpa using heven) hv2

/-- Witness for C7 at the concrete state [3, 5]: endSelection 7 with
updateLast gives [3, 7], and endSelection 9 next gives [3, 9]. -/
theorem endSelection_updateLast_witness :
    endSelection [3, 5] 7 true = some [3, 7] ∧
    ([3, 7] : List ℤ).length = ([3, 5] : List ℤ).length ∧
    endSelection [3, 7] 9 true = some [3, 9] := by
  have h := endSelection_updateLast [] 3 5 7 9 (by decide) (by decide) (by decide)
  simpa using h

/-- Counterexample to C7 as stated: from the even state [3, 5], calling
endSelection 3 with updateLast clears the selection entirely (the new
value equals the remaining endpoint), so the endpoint count drops from 2
to 0 instead of staying unchanged. -/
theorem endSelection_updateLast_cex :
    endSelection [3, 5] 3 true = some [] ∧
    ¬ (([] : List ℤ).length = ([3, 5] : List ℤ).length) := by
  decide

/-- Claim C8: from a state with an even number of recorded endpoints and
distinct values a and b, setSelection a b records the pair and
getSelection returns (min a b, max a b): the displayed selection is
symmetric in the two arguments. -/
theorem setSelection_getSelection (sel : List ℤ) (a b : ℤ)
    (heven : sel.length % 2 = 0) (hab : a ≠ b) :
    setSelection sel a b = some (sel ++ [a, b]) ∧
    getSelection (sel ++ [a, b]) = (min a b, max a b) :=
  ⟨setSelection_even sel a b heven hab, getSelection_append_two sel a b heven⟩

/-- Witness for C8: setSelection 5 10 and setSelection 10 5 from the empty
selection both make getSelection return (5, 10). -/
theorem setSelection_getSelection_witness :
    setSelection [] 5 10 = some [5, 10] ∧ getSelection [5, 10] = (5, 10) ∧
    setSelection [] 10 5 = some [10, 5] ∧ getSelection [10, 5] = (5, 10) := by
  have h1 := setSelection_getSelection [] 5 10 (by decide) (by decide)
  have h2 := setSelection_getSelection [] 10 5 (by decide) (by decide)
  refine ⟨by simpa using h1.1, ?_, by simpa using h2.1, ?_⟩
  · have := h1.2
    norm_num at this ⊢
    simpa using this
  · have := h2.2
    norm_num at this ⊢
    simpa using this

/-- The single range-track mark [20, 30) of claim C2. -/
def exTrackMark : SliderMark := ⟨"track", 20, some 30, none⟩

/-- The mark set of claim C2: exactly one range-track mark, no others. -/
def exTrackMarks : List SliderMark := [exTrackMark]

lemma exTrack_decrement (v : ℤ) (h1 : 20 ≤ v) (h2 : v ≤ 30) :
    decrementContiguousMarkedVal exTrackMarks v = 20 := by
  rcases eq_or_lt_of_le h1 with h | h
  · rw [← h]
    decide
  · unfold decrementContiguousMarkedVal decCandidates
    simp [exTrackMarks, exTrackMark, pyMinD, h, h2]

lemma exTrack_increment (v : ℤ) (h1 : 20 ≤ v) (h2 : v < 30) :
    incrementContiguousMarkedVal exTrackMarks v = 29 := by
  have hcand : incCandidates exTrackMarks v = [29] := by
    unfold incCandidates
    simp [exTrackMarks, exTrackMark, h1, h2]
  unfold incrementContiguousMarkedVal
  rw [hcand]
  rcases eq_or_lt_of_le (show v ≤ 29 by omega) with h | h
  · rw [← h]
    simp [pyMaxD, exTrackMarks, exTrackMark]
    omega
  · simp [pyMaxD, h]

lemma exTrack_start (vmin : ℤ) (hmin : vmin < 20) (v : ℤ)
    (h1 : 20 ≤ v) (h2 : v ≤ 30) :
    getStartContiguousMark exTrackMarks vmin v = 20 := by
  have hbase : getStartContiguousMark exTrackMarks vmin 20 = 20 := by
    rw [getStartContiguousMark, exTrack_decrement 20 (by norm_num) (by norm_num)]
    norm_num
  rcases eq_or_lt_of_le h1 with h | h
  · rw [← h]
    exact hbase
  · rw [getStartContiguousMark, exTrack_decrement v (le_of_lt h) h2,
      if_pos ⟨h, hmin⟩]
    exact hbase

lemma exTrack_end (vmax : ℤ) (hmax : 30 < vmax) (v : ℤ)
    (h1 : 20 ≤ v) (h2 : v < 30) :
    getEndContiguousMark exTrackMarks vmax v = 29 := by
  have hbase : getEndContiguousMark exTrackMarks vmax 29 = 29 := by
    rw [getEndContiguousMark, exTrack_increment 29 (by norm_num) (by norm_num)]
    norm_num
  rcases eq_or_lt_of_le (show v ≤ 29 by omega) with h | h
  · rw [h]
    exact hbase
  · rw [getEndContiguousMark, exTrack_increment v h1 h2,
      if_pos ⟨h, by omega⟩]
    exact hbase

/-- Claim C2 (amended): when the mark set holds exactly the range-track
mark [20, 30) and min is below 20, max above 30, calling
contiguousSelectionMarksAroundVal on any value v with 20 less or equal v
below 30, from a state with an even number of recorded selection
endpoints, sets the selection so that getSelection returns (20, 29): the
upper endpoint is end_val - 1, the last marked frame, not the exclusive
bound 30. -/
theorem contiguousSelection_around_track (vmin vmax : ℤ) (sel : List ℤ)
    (v : ℤ) (hmin : vmin < 20) (hmax : 30 < vmax)
    (hsel : sel.length % 2 = 0) (h1 : 20 ≤ v) (h2 : v < 30) :
    contiguousSelectionMarksAroundVal exTrackMarks vmin vmax sel v =
      some (sel ++ [20, 29]) ∧
    getSelection (sel ++ [20, 29]) = (20, 29) := by
  have hmarked : isMarkedVal exTrackMarks v = true := by
    simp [isMarkedVal, exTrackMarks, exTrackMark]
    omega
  constructor
  · unfold contiguousSelectionMarksAroundVal
    rw [if_pos hmarked,
      exTrack_start vmin hmin v h1 (le_of_lt h2),
      exTrack_end vmax hmax v h1 h2]
    exact setSelection_even sel 20 29 hsel (by norm_num)
  · have h := getSelection_append_two sel 20 29 hsel
    simpa using h

/-- Witness for C2 (amended) at min 0, max 100, empty prior selection,
value 25. -/
theorem contiguousSelection_around_track_witness :
    contiguousSelectionMarksAroundVal exTrackMarks 0 100 [] 25 =
      some [20, 29] ∧
    getSelection [20, 29] = (20, 29) := by
  have h := contiguousSelection_around_track 0 100 [] 25 (by norm_num)
    (by norm_num) (by decide) (by norm_num) (by norm_num)
  simpa using h

/-- Counterexample to C2 as stated: at min 0, max 100, value 25 inside
the track mark [20, 30), the selection becomes [20, 29] and getSelection
returns (20, 29), not (20, 30). -/
theorem contiguousSelection_around_track_cex :
    contiguousSelectionMarksAroundVal exTrackMarks 0 100 [] 25 =
      some [20, 29] ∧
    getSelection [20, 29] ≠ (20, 30) := by
  constructor
  · unfold contiguousSelectionMarksAroundVal
    rw [if_pos (show isMarkedVal exTrackMarks 25 = true by decide),
      exTrack_start 0 (by norm_num) 25 (by norm_num) (by norm_num),
      exTrack_end 100 (by norm_num) 25 (by norm_num) (by norm_num)]
    decide
  · decide

lemma tickOrderLoop_spec (n : ℕ) :
    ∀ (vr order : ℤ) (h : 0 < order), (vr - order).toNat ≤ n →
    ∃ k : ℕ, tickOrderLoop vr order h = order * 10 ^ k ∧
      vr / (order * 10 ^ k) ≤ 24 ∧
      ∀ j : ℕ, j < k → 24 < vr / (order * 10 ^ j) := by
  induction n with
  | zero =>
    intro vr order h hle
    have hvr : vr ≤ order := by omega
    have hno : ¬ 24 < vr / order := by
      have h1 : vr / order ≤ order / order := Int.ediv_le_ediv h hvr
      rw [Int.ediv_self (by omega)] at h1
      omega
    rw [tickOrderLoop, if_neg hno]
    refine ⟨0, by simp, by simpa using hno, ?_⟩
    intro j hj
    exact absurd hj (Nat.not_lt_zero j)
  | succ n ih =>
    intro vr order h hle
    by_cases hc : 24 < vr / order
    · have h25 : 25 * order ≤ vr := (Int.le_ediv_iff_mul_le h).mp (by omega)
      rw [tickOrderLoop, if_pos hc]
      have hm : (vr - order * 10).toNat ≤ n := by omega
      obtain ⟨k, hk, hle24, hgt⟩ := ih vr (order * 10) (by omega) hm
      refine ⟨k + 1, ?_, ?_, ?_⟩
      · rw [hk]
        ring
      · have heq : order * 10 * 10 ^ k = order * 10 ^ (k + 1) := by ring
        rwa [heq] at hle24
      · intro j hj
        rcases Nat.eq_zero_or_pos j with hj0 | hjp
        · rw [hj0]
          simpa using hc
        · obtain ⟨j2, rfl⟩ : ∃ j2, j = j2 + 1 := ⟨j - 1, by omega⟩
          have hg := hgt j2 (by omega)
          have heq : order * 10 * 10 ^ j2 = order * 10 ^ (j2 + 1) := by ring
          rwa [heq] at hg
    · rw [tickOrderLoop, if_neg hc]
      refine ⟨0, by simp, by simpa using hc, ?_⟩
      intro j hj
      exact absurd hj (Nat.not_lt_zero j)

lemma tickOrder_spec (vr : ℤ) :
    ∃ k : ℕ, tickOrder vr = 10 ^ (k + 1) ∧ vr / 10 ^ (k + 1) ≤ 24 ∧
      ∀ j : ℕ, 1 ≤ j → (10 : ℤ) ^ j < 10 ^ (k + 1) → 24 < vr / 10 ^ j := by
  obtain ⟨k, hk, h24, hlt⟩ :=
    tickOrderLoop_spec ((vr - 10).toNat) vr 10 (by norm_num) (le_refl _)
  refine ⟨k, ?_, ?_, ?_⟩
  · rw [tickOrder, hk]
    ring
  · have heq : (10 : ℤ) * 10 ^ k = 10 ^ (k + 1) := by ring
    rwa [heq] at h24
  · intro j hj hjlt
    have hjk : j < k + 1 :=
      (pow_lt_pow_iff_right₀ (by norm_num : (1 : ℤ) < 10)).mp hjlt
    obtain ⟨j2, rfl⟩ : ∃ j2, j = j2 + 1 := ⟨j - 1, by omega⟩
    have hg := hlt j2 (by omega)
    have heq : (10 : ℤ) * 10 ^ j2 = 10 ^ (j2 + 1) := by ring
    rwa [heq] at hg

/-- Claim C3 (amended): the automatic tick step is the smallest
power-of-ten multiple of 10 with visible range divided by step at most 24
(start at 10, multiply by 10 while above 24), and the ticks are placed at
every step-th position starting at min + step - 1, strictly below max —
an arithmetic progression with stride step, whose members are in general
not multiples of the step. -/
theorem tick_marks_spec (val_range vmin vmax : ℤ) :
    (∃ k : ℕ, tickOrder val_range = 10 ^ (k + 1)) ∧
    val_range / tickOrder val_range ≤ 24 ∧
    (∀ j : ℕ, 1 ≤ j → (10 : ℤ) ^ j < tickOrder val_range →
      24 < val_range / 10 ^ j) ∧
    addTickMarkPositions val_range vmin vmax =
      pyRange (vmin + tickOrder val_range - 1) vmax (tickOrder val_range) := by
  obtain ⟨k, hk, h24, hmin⟩ := tickOrder_spec val_range
  refine ⟨⟨k, hk⟩, ?_, ?_, rfl⟩
  · rw [hk]
    exact h24
  · intro j hj hjlt
    rw [hk] at hjlt
    exact hmin j hj hjlt

/-- Counterexample to C3 as stated: with min 0, max 100 and visible value
range 100 the step is 10, and the tick positions are 9, 19, ..., 99 —
not the multiples of 10 within [9, 100) that the claim describes. -/
theorem tick_marks_cex :
    tickOrder 100 = 10 ∧
    addTickMarkPositions 100 0 100 =
      [9, 19, 29, 39, 49, 59, 69, 79, 89, 99] ∧
    specTickPositions 0 100 10 =
      [10, 20, 30, 40, 50, 60, 70, 80, 90] ∧
    addTickMarkPositions 100 0 100 ≠ specTickPositions 0 100 10 := by
  have h10 : tickOrder 100 = 10 := by
    rw [tickOrder, tickOrderLoop]
    norm_num
  have hpos : addTickMarkPositions 100 0 100 =
      [9, 19, 29, 39, 49, 59, 69, 79, 89, 99] := by
    unfold addTickMarkPositions
    rw [h10]
    decide
  have hspec : specTickPositions 0 100 10 =
      [10, 20, 30, 40, 50, 60, 70, 80, 90] := by
    decide
  refine ⟨h10, hpos, hspec, ?_⟩
  rw [hpos, hspec]
  decide

end Sleap
